import Mathlib

/-!
Verification of the LTL quotes report generator.

This file gives a shallow embedding, over lists of records, of the
aggregation, report-assembly, folder-resolution and expansion-analysis
logic of `report_generator.py` and `expansion_app.py`, and proves the
behavioural claims about that code.  DataFrames are modelled as lists of
rows, numbers as `ℚ`/`ℕ`, nullable cells as `Option String`, and Python
dictionaries as association lists.
-/

attribute [local semireducible] Rat.mul Rat.add Rat.sub Rat.inv Rat.ofScientific

namespace LTL

/-! ### Python string primitives, modelled on `List Char` -/

/-- Python `str.strip()`: drop leading and trailing whitespace characters. -/
def trimChars (l : List Char) : List Char :=
  ((l.dropWhile Char.isWhitespace).reverse.dropWhile Char.isWhitespace).reverse

/-- Python `str.strip()` on a `String`. -/
def pyStrip (s : String) : String := ⟨trimChars s.data⟩

/-- Python `str.lower()` (ASCII range, which covers the data in scope). -/
def pyLower (s : String) : String := ⟨s.data.map Char.toLower⟩

/-- Python `str.upper()` (ASCII range). -/
def pyUpper (s : String) : String := ⟨s.data.map Char.toUpper⟩

/-- Python slicing `s[:n]` on strings. -/
def strTake (s : String) (n : ℕ) : String := ⟨s.data.take n⟩

/-- Python slicing `s[a:b]` on strings (for `a ≤ b`). -/
def strSlice (s : String) (a b : ℕ) : String := ⟨(s.data.drop a).take (b - a)⟩

/-- Python `s.split(c)[0]`: the prefix of `s` before the first occurrence of `c`. -/
def splitHead (c : Char) (s : String) : String := ⟨s.data.takeWhile (fun x => x ≠ c)⟩

/-- The first whitespace-separated token of a string, i.e. `s.split()[0]`
for a string starting with a non-whitespace character. -/
def firstToken (s : String) : String := ⟨s.data.takeWhile (fun c => !c.isWhitespace)⟩

/-- Python `str.zfill(n)`: left-pad with `'0'` to length `n`, keeping a
leading sign character in front of the padding. -/
def zfill (s : String) (n : ℕ) : String :=
  match s.data with
  | '-' :: rest => ⟨'-' :: (List.replicate (n - 1 - rest.length) '0' ++ rest)⟩
  | '+' :: rest => ⟨'+' :: (List.replicate (n - 1 - rest.length) '0' ++ rest)⟩
  | l => ⟨List.replicate (n - l.length) '0' ++ l⟩

/-- Value of a nonempty all-digit character list, as in Python `int()`. -/
def digitsVal (l : List Char) : Option ℕ :=
  if l ≠ [] ∧ l.all Char.isDigit then
    some (l.foldl (fun a c => a * 10 + (c.toNat - 48)) 0)
  else none

/-- Python `int(s)` restricted to an optional sign followed by digits
(the folder-name slices parsed by the code contain no whitespace or
underscores). -/
def pyInt (s : String) : Option ℤ :=
  match s.data with
  | '-' :: rest => (digitsVal rest).map (fun v => -(v : ℤ))
  | '+' :: rest => (digitsVal rest).map (fun v => (v : ℤ))
  | l => (digitsVal l).map (fun v => (v : ℤ))

/-- Python `'pat' in s` substring test. -/
def hasSub (s pat : String) : Bool := decide (pat.data <:+: s.data)

/-- Python `s.startswith('W')`. -/
def startsWithW (s : String) : Bool :=
  match s.data with
  | c :: _ => c = 'W'
  | [] => false

/-! ### Rounding

`pandas`/`numpy` `round(2)` rounds half to even.  We model the report's
2-decimal rounding on `ℚ`. -/

/-- Floor of a rational, computed directly (`q.den` is positive, so
floored integer division of the numerator by the denominator is the
mathematical floor). -/
def ratFloor (q : ℚ) : ℤ := q.num.fdiv q.den

/-- Round a rational to the nearest integer, ties to the even integer
(the `numpy` rounding used by `.round(2)`). -/
def rhe (q : ℚ) : ℤ :=
  if q - ratFloor q < 1/2 then ratFloor q
  else if (1 : ℚ)/2 < q - ratFloor q then ratFloor q + 1
  else if ratFloor q % 2 = 0 then ratFloor q else ratFloor q + 1

/-- Round to 2 decimal places, ties to even, as `pandas` `.round(2)`. -/
def round2 (q : ℚ) : ℚ := ((rhe (q * 100) : ℤ) : ℚ) / 100

/-! ### Quote rows

A quote row models one CSV record.  Base columns come from the CSV files;
the remaining fields model the derived columns that the Python code adds
to (copies of) the frame (`booked` as bool, `is_rated`, airport/region
columns).  `Option` models pandas nullability (`None` = `NaN`). -/

structure Row where
  customer : Option String := none
  booked : Option String := none
  rate : Option String := none
  pickup : Option String := none
  dropoff : Option String := none
  bookedB : Option Bool := none
  ratedB : Option Bool := none
  originAirport : Option String := none
  destAirport : Option String := none
  laneCol : Option String := none
  originRegion : Option String := none
  destRegion : Option String := none
  regionLaneCol : Option String := none
deriving DecidableEq, Repr

/-- Python `str(x)` on a possibly-null cell: `NaN` stringifies to `"nan"`. -/
def pyStr (c : Option String) : String := c.getD "nan"

/-- The shared rated predicate:
`df['rate'].notna() & (df['rate'].astype(str).str.strip() != '')`. -/
def isRatedCell (rate : Option String) : Bool :=
  match rate with
  | none => false
  | some s => pyStrip s ≠ ""

/-- The booked flag: `df['booked'].astype(str).str.lower() == 'true'`. -/
def bookedFlag (booked : Option String) : Bool :=
  pyLower (pyStr booked) = "true"

/-! ### Per-customer weekly statistics (`calculate_week_stats`)

`pandas` peculiarity modelled by the `Option` result: on an empty input
frame the function returns the bare `pd.DataFrame()`, which has *no
columns*; any later column access on it raises `KeyError`.  We model that
degenerate frame as `none` and a proper statistics table as `some` of a
list of records (possibly empty). -/

structure CustStat where
  customer : String
  booked : ℕ
  rated : ℕ
  total_quotes : ℕ
  pct_rated : ℚ
deriving DecidableEq, Repr

/-- The distinct customers of a frame, in order of appearance
(`groupby('customer')` keys; rows with a null customer are dropped). -/
def groupCustomers (df : List Row) : List String :=
  (df.filterMap Row.customer).dedup

/-- `calculate_week_stats` (report_generator.py:100-117): per-customer
`booked`/`rated`/`total_quotes` counts and `pct_rated = (rated /
total_quotes * 100).round(2)`.  Returns `none` for the column-less
`pd.DataFrame()` produced from an empty input frame. -/
def calculate_week_stats (df : List Row) : Option (List CustStat) :=
  if df.isEmpty then none
  else some ((groupCustomers df).map (fun c =>
    let g := df.filter (fun r => r.customer = some c)
    let b := (g.filter (fun r => bookedFlag r.booked)).length
    let rt := (g.filter (fun r => isRatedCell r.rate)).length
    ⟨c, b, rt, g.length, round2 ((rt : ℚ) / (g.length : ℚ) * 100)⟩))

theorem mem_groupCustomers_exists {df : List Row} {c : String}
    (h : c ∈ groupCustomers df) : ∃ r ∈ df, r.customer = some c := by
  unfold groupCustomers at h
  rw [List.mem_dedup, List.mem_filterMap] at h
  exact h

/-- C1: in `calculate_week_stats`, for every input table and every
customer group, `pct_rated` equals `rated / total_quotes * 100` rounded
to 2 decimals whenever the group's total is positive, and equals `0.0`
when the total is `0`.  (In fact every group contains at least one row,
so the total is always positive and the zero case is vacuous.) -/
theorem claim1_pct_rated (df : List Row) (stats : List CustStat)
    (h : calculate_week_stats df = some stats) (s : CustStat) (hs : s ∈ stats) :
    0 < s.total_quotes ∧
      (0 < s.total_quotes →
        s.pct_rated = round2 ((s.rated : ℚ) / (s.total_quotes : ℚ) * 100)) ∧
      (s.total_quotes = 0 → s.pct_rated = 0) := by
  unfold calculate_week_stats at h
  by_cases hd : df.isEmpty
  · simp [hd] at h
  · simp only [hd, Bool.false_eq_true, if_false, Option.some.injEq] at h
    subst h
    rw [List.mem_map] at hs
    obtain ⟨c, hc, rfl⟩ := hs
    obtain ⟨r, hr, hrc⟩ := mem_groupCustomers_exists hc
    have hmem : r ∈ df.filter (fun r => r.customer = some c) := by
      rw [List.mem_filter]
      exact ⟨hr, by simp [hrc]⟩
    have hpos : 0 < (df.filter (fun r => r.customer = some c)).length :=
      List.length_pos.mpr (fun he => by simp [he] at hmem)
    refine ⟨hpos, fun _ => rfl, fun h0 => absurd h0 (Nat.pos_iff_ne_zero.mp hpos)⟩

/-- Witness for C1 on a concrete one-row table. -/
theorem claim1_pct_rated_witness :
    0 < (CustStat.mk "A" 1 1 1 100).total_quotes ∧
      (0 < (CustStat.mk "A" 1 1 1 100).total_quotes →
        (CustStat.mk "A" 1 1 1 100).pct_rated =
          round2 (((CustStat.mk "A" 1 1 1 100).rated : ℚ) /
            ((CustStat.mk "A" 1 1 1 100).total_quotes : ℚ) * 100)) ∧
      ((CustStat.mk "A" 1 1 1 100).total_quotes = 0 →
        (CustStat.mk "A" 1 1 1 100).pct_rated = 0) :=
  claim1_pct_rated
    [{ customer := some "A", booked := some "True", rate := some "12.5" }]
    [⟨"A", 1, 1, 1, 100⟩] (by decide) ⟨"A", 1, 1, 1, 100⟩ (by decide)

/-! ### Customer pivot report (`generate_report`, report_generator.py:120-206)

The report takes one `(week label, loaded frame)` pair per selected week
folder.  For each customer appearing in any week it emits one row with a
`{Booked, Rated, Total Quotes, % Rated}` cell group per week (zero-filled
when the customer is absent), sorts rows by total volume descending, and
prepends a `TOTAL` row whose count columns are the column-wise sums of
the data rows and whose `% Rated` is recomputed from the summed counts.

Python failure modes modelled by the `none` result: when a selected week
has an empty frame, `calculate_week_stats` returns the column-less
`pd.DataFrame()` and line 156 (`stats['customer']`) raises `KeyError`;
when no customer exists at all, `report_rows` is empty and line 186
(`sort_values('_total_volume')`) raises `KeyError`. -/

structure WeekCell where
  booked : ℕ
  rated : ℕ
  total : ℕ
  pct : ℚ
deriving DecidableEq, Repr

structure RRow where
  name : String
  cells : List WeekCell
deriving DecidableEq, Repr

def emptyCell : WeekCell := ⟨0, 0, 0, 0⟩

/-- Lines 165-173: take the customer's statistics row if present in the
week's table, else zero-fill all four metrics. -/
def statLookup (stats : List CustStat) (c : String) : WeekCell :=
  match stats.filter (fun s => s.customer = c) with
  | [] => emptyCell
  | s :: _ => ⟨s.booked, s.rated, s.total_quotes, s.pct_rated⟩

/-- The cell group of a report row at week position `i` (every row carries
a value for every week column; `emptyCell` is only the `getD` default). -/
def cellAt (r : RRow) (i : ℕ) : WeekCell := r.cells[i]?.getD emptyCell

/-- The `_total_volume` sort key (sum of the row's `Total Quotes` cells). -/
def totalVolume (cells : List WeekCell) : ℕ := (cells.map WeekCell.total).sum

def sumBooked (rows : List RRow) (i : ℕ) : ℕ :=
  (rows.map (fun r => (cellAt r i).booked)).sum

def sumRated (rows : List RRow) (i : ℕ) : ℕ :=
  (rows.map (fun r => (cellAt r i).rated)).sum

def sumTotal (rows : List RRow) (i : ℕ) : ℕ :=
  (rows.map (fun r => (cellAt r i).total)).sum

/-- Lines 192-202: the `TOTAL` row's cell for week `i`: column-wise sums
of the data rows' counts; `% Rated` recomputed from the summed counts
(with the explicit `total_quotes > 0` guard, else `0.0`). -/
def mkTotalCell (rows : List RRow) (i : ℕ) : WeekCell :=
  ⟨sumBooked rows i, sumRated rows i, sumTotal rows i,
    if 0 < sumTotal rows i then
      round2 ((sumRated rows i : ℚ) / (sumTotal rows i : ℚ) * 100)
    else 0⟩

/-- Descending order on `_total_volume` (`sort_values(ascending=False)`;
Python's sort is stable, as is insertion sort). -/
def volDesc (a b : RRow) : Prop := totalVolume b.cells ≤ totalVolume a.cells

instance : DecidableRel volDesc := fun a b => by
  unfold volDesc; infer_instance

/-- The per-week statistics tables (`week_data`), with `[]` standing in
for the tables that would make the report crash (handled separately in
`generate_report`). -/
def weekStatsList (weeks : List (String × List Row)) : List (List CustStat) :=
  weeks.map (fun w => (calculate_week_stats w.2).getD [])

/-- Line 148-156: the union of customers seen in any selected week. -/
def allCustomers (weeks : List (String × List Row)) : List String :=
  ((weekStatsList weeks).map (fun st => st.map CustStat.customer)).flatten.dedup

/-- Lines 159-181: one row per customer with a cell group per week. -/
def customerRows (weeks : List (String × List Row)) : List RRow :=
  (allCustomers weeks).map
    (fun c => ⟨c, (weekStatsList weeks).map (fun st => statLookup st c)⟩)

/-- Line 186: data rows sorted by total volume descending. -/
def sortedCustomerRows (weeks : List (String × List Row)) : List RRow :=
  (customerRows weeks).insertionSort volDesc

/-- `generate_report`: `none` models the two `KeyError` crashes described
above, `some` the produced report (TOTAL row first). -/
def generate_report (weeks : List (String × List Row)) : Option (List RRow) :=
  if (weeks.map (fun w => calculate_week_stats w.2)).all Option.isSome then
    if (allCustomers weeks).isEmpty then none
    else
      some (⟨"TOTAL",
        (List.range weeks.length).map (mkTotalCell (sortedCustomerRows weeks))⟩ ::
          sortedCustomerRows weeks)
  else none

theorem cellAt_totalRow (rs : List RRow) (n i : ℕ) (h : i < n) :
    cellAt ⟨"TOTAL", (List.range n).map (mkTotalCell rs)⟩ i = mkTotalCell rs i := by
  unfold cellAt
  rw [List.getElem?_map, List.getElem?_range h]
  rfl

/-- C2 (counterexample to the claim as stated): the `TOTAL` row's
`% Rated` cell is *not* the column-wise sum of the data rows' `% Rated`
cells — with one fully rated and one unrated single-quote customer the
data rows carry `100.0` and `0.0` but the total carries `50.0`, not
`100.0`.  The count metrics are column-wise sums; the percentage is
recomputed from the summed counts. -/
theorem claim2_counterexample :
    generate_report [("W01Y25",
        [{ customer := some "A", rate := some "1" },
         { customer := some "B" }])] =
      some [⟨"TOTAL", [⟨0, 1, 2, 50⟩]⟩,
        ⟨"A", [⟨0, 1, 1, 100⟩]⟩, ⟨"B", [⟨0, 0, 1, 0⟩]⟩] ∧
      (cellAt ⟨"TOTAL", [⟨0, 1, 2, 50⟩]⟩ 0).pct ≠
        (([⟨"A", [⟨0, 1, 1, 100⟩]⟩, ⟨"B", [⟨0, 0, 1, 0⟩]⟩] : List RRow).map
          (fun r => (cellAt r 0).pct)).sum :=
  ⟨by decide, by decide⟩

/-- C2 (amended): in the customer report the `TOTAL` row is inserted
first, its `Booked`/`Rated`/`Total Quotes` values are the column-wise
sums of those metrics over all non-total entity rows (computed from the
pivoted columns, not by re-aggregating raw quote rows), and its `% Rated`
is recomputed from the summed `Rated` and `Total Quotes` (`0.0` when the
summed total is `0`).  The label-distinctness hypothesis models the
label-keyed `week_data` dictionary. -/
theorem claim2_total_row (weeks : List (String × List Row)) (rep : List RRow)
    (_hlb : (weeks.map Prod.fst).Nodup)
    (h : generate_report weeks = some rep) :
    ∃ total rest, rep = total :: rest ∧ total.name = "TOTAL" ∧
      total.cells.length = weeks.length ∧
      (∀ r ∈ rest, r.cells.length = weeks.length) ∧
      ∀ i, i < weeks.length →
        (cellAt total i).booked = (rest.map (fun r => (cellAt r i).booked)).sum ∧
        (cellAt total i).rated = (rest.map (fun r => (cellAt r i).rated)).sum ∧
        (cellAt total i).total = (rest.map (fun r => (cellAt r i).total)).sum ∧
        (cellAt total i).pct =
          (if 0 < (cellAt total i).total then
            round2 (((cellAt total i).rated : ℚ) / ((cellAt total i).total : ℚ) * 100)
          else 0) := by
  unfold generate_report at h
  by_cases h1 : (weeks.map (fun w => calculate_week_stats w.2)).all Option.isSome
  · rw [if_pos h1] at h
    by_cases h2 : (allCustomers weeks).isEmpty
    · rw [if_pos h2] at h; exact absurd h (by simp)
    · rw [if_neg h2, Option.some.injEq] at h
      refine ⟨_, sortedCustomerRows weeks, h.symm, rfl, by simp, ?_, ?_⟩
      · intro r hr
        have hr' : r ∈ customerRows weeks :=
          (List.Perm.mem_iff (List.perm_insertionSort volDesc (customerRows weeks))).mp hr
        unfold customerRows at hr'
        rw [List.mem_map] at hr'
        obtain ⟨c, _, rfl⟩ := hr'
        simp [weekStatsList]
      · intro i hi
        rw [cellAt_totalRow _ _ _ hi]
        refine ⟨rfl, rfl, rfl, rfl⟩
  · rw [if_neg h1] at h; exact absurd h (by simp)

/-- Witness for C2 (amended) on a concrete two-customer, one-week input. -/
theorem claim2_total_row_witness :
    ∃ total rest,
      ([⟨"TOTAL", [⟨1, 1, 2, 50⟩]⟩, ⟨"A", [⟨1, 1, 1, 100⟩]⟩,
          ⟨"B", [⟨0, 0, 1, 0⟩]⟩] : List RRow) = total :: rest ∧
      total.name = "TOTAL" ∧
      total.cells.length =
        ([("W01Y25",
          [{ customer := some "A", booked := some "True", rate := some "1" },
           ({ customer := some "B" } : Row)])] : List (String × List Row)).length ∧
      (∀ r ∈ rest, r.cells.length =
        ([("W01Y25",
          [{ customer := some "A", booked := some "True", rate := some "1" },
           ({ customer := some "B" } : Row)])] : List (String × List Row)).length) ∧
      ∀ i, i < ([("W01Y25",
          [{ customer := some "A", booked := some "True", rate := some "1" },
           ({ customer := some "B" } : Row)])] : List (String × List Row)).length →
        (cellAt total i).booked = (rest.map (fun r => (cellAt r i).booked)).sum ∧
        (cellAt total i).rated = (rest.map (fun r => (cellAt r i).rated)).sum ∧
        (cellAt total i).total = (rest.map (fun r => (cellAt r i).total)).sum ∧
        (cellAt total i).pct =
          (if 0 < (cellAt total i).total then
            round2 (((cellAt total i).rated : ℚ) / ((cellAt total i).total : ℚ) * 100)
          else 0) :=
  claim2_total_row
    [("W01Y25",
      [{ customer := some "A", booked := some "True", rate := some "1" },
       ({ customer := some "B" } : Row)])]
    [⟨"TOTAL", [⟨1, 1, 2, 50⟩]⟩, ⟨"A", [⟨1, 1, 1, 100⟩]⟩, ⟨"B", [⟨0, 0, 1, 0⟩]⟩]
    (by decide) (by decide)

/-- C9 (code bug, failing input): the claim — zero-filled metrics for
entities absent from a period, *including a period whose statistics table
is empty* — is what §7 of the spec demands and what the lane/region
reports implement, but `generate_report` instead crashes: for an empty
week frame `calculate_week_stats` returns the column-less
`pd.DataFrame()` and `stats['customer']` (line 156) raises `KeyError`,
so customer "A" of the second week gets no report at all (modelled by
`none`). -/
theorem claim9_empty_week_crash :
    generate_report
      [("W01Y25", ([] : List Row)),
       ("W02Y25", [{ customer := some "A", rate := some "1" }])] = none := by
  decide

/-! ### Mapping lookups (`get_airport_code`, `get_region`)

Mapping dictionaries are association lists with first-match lookup. -/

/-- The ZIP normalization of `get_airport_code` (line 345):
`str(zip).split('-')[0].split('.')[0].strip().zfill(5)[:5]`. -/
def normalizeZip (z : String) : String :=
  strTake (zfill (pyStrip (splitHead '.' (splitHead '-' z))) 5) 5

/-- `get_airport_code` (report_generator.py:339-347): `UNKNOWN` for a
null/blank ZIP; otherwise look the normalized ZIP up, falling back to the
normalized ZIP itself. -/
def get_airport_code (zip_code : Option String)
    (mapping : List (String × String)) : String :=
  match zip_code with
  | none => "UNKNOWN"
  | some z =>
    if pyStrip z = "" then "UNKNOWN"
    else (mapping.lookup (normalizeZip z)).getD (normalizeZip z)

/-- `get_region` (report_generator.py:492-498): `UNKNOWN` for a
null/blank code; otherwise look up `str(code).strip().upper()`, falling
back to that normalized code itself. -/
def get_region (airport_code : Option String)
    (mapping : List (String × String)) : String :=
  match airport_code with
  | none => "UNKNOWN"
  | some a =>
    if pyStrip a = "" then "UNKNOWN"
    else (mapping.lookup (pyUpper (pyStrip a))).getD (pyUpper (pyStrip a))

/-- C5: `get_airport_code` maps null/blank to `UNKNOWN`, otherwise
normalizes the ZIP to 5 digits (suffixes after `-`/`.` stripped,
zero-padded, truncated to 5) and returns the mapped value when present,
the normalized ZIP itself when unmapped; `get_region` maps null/blank to
`UNKNOWN`, otherwise uppercase-trims the code and returns the mapped
region when present, the normalized code itself when unmapped. -/
theorem claim5_lookups :
    (∀ m : List (String × String),
      get_airport_code none m = "UNKNOWN" ∧ get_region none m = "UNKNOWN") ∧
    (∀ (z : String) (m : List (String × String)), pyStrip z = "" →
      get_airport_code (some z) m = "UNKNOWN" ∧ get_region (some z) m = "UNKNOWN") ∧
    (∀ (z v : String) (m : List (String × String)), pyStrip z ≠ "" →
      m.lookup (normalizeZip z) = some v → get_airport_code (some z) m = v) ∧
    (∀ (z : String) (m : List (String × String)), pyStrip z ≠ "" →
      m.lookup (normalizeZip z) = none →
      get_airport_code (some z) m = normalizeZip z) ∧
    (∀ (a v : String) (m : List (String × String)), pyStrip a ≠ "" →
      m.lookup (pyUpper (pyStrip a)) = some v → get_region (some a) m = v) ∧
    (∀ (a : String) (m : List (String × String)), pyStrip a ≠ "" →
      m.lookup (pyUpper (pyStrip a)) = none →
      get_region (some a) m = pyUpper (pyStrip a)) := by
  refine ⟨fun m => ⟨rfl, rfl⟩, fun z m hz => ?_, fun z v m hz hl => ?_,
    fun z m hz hl => ?_, fun a v m ha hl => ?_, fun a m ha hl => ?_⟩
  · exact ⟨by simp [get_airport_code, hz], by simp [get_region, hz]⟩
  · simp [get_airport_code, hz, hl]
  · simp [get_airport_code, hz, hl]
  · simp [get_region, ha, hl]
  · simp [get_region, ha, hl]

/-- Witness for C5: a mapped ZIP needing suffix-stripping and padding, an
unmapped ZIP, and an unmapped lowercase airport code. -/
theorem claim5_lookups_witness :
    get_airport_code (some "1234-56") [("01234", "ABE")] = "ABE" ∧
    get_airport_code (some "99999") [("01234", "ABE")] = "99999" ∧
    get_region (some " abe ") [] = "ABE" :=
  ⟨claim5_lookups.2.2.1 "1234-56" "ABE" [("01234", "ABE")] (by decide) (by decide),
   claim5_lookups.2.2.2.1 "99999" [("01234", "ABE")] (by decide) (by decide),
   claim5_lookups.2.2.2.2.2 " abe " [] (by decide) (by decide)⟩

/-! ### Lane and region statistics and trend reports

(`calculate_lanes_stats` 350-377, `generate_lanes_report` 380-464,
`calculate_regions_stats` 501-531, `generate_regions_report` 534-619.) -/

/-- `calculate_lanes_stats`: restrict to rated rows, map pickup/dropoff
ZIPs to airport codes, key each row by `"{origin}-{dest}"`, count rows
per lane.  `[]` models the empty frame returned for an empty or
all-unrated input (the report builder guards every access on it). -/
def calculate_lanes_stats (df : List Row)
    (mapping : List (String × String)) : List (String × ℕ) :=
  if df.isEmpty then []
  else
    let rated := df.filter (fun r => isRatedCell r.rate)
    if rated.isEmpty then []
    else
      let lanes := rated.map (fun r =>
        get_airport_code r.pickup mapping ++ "-" ++ get_airport_code r.dropoff mapping)
      lanes.dedup.map (fun l => (l, (lanes.filter (fun x => x = l)).length))

/-- `calculate_regions_stats`: like lanes, but airport codes are mapped
further to regions before composing the key. -/
def calculate_regions_stats (df : List Row)
    (zmap rmap : List (String × String)) : List (String × ℕ) :=
  if df.isEmpty then []
  else
    let rated := df.filter (fun r => isRatedCell r.rate)
    if rated.isEmpty then []
    else
      let regionLanes := rated.map (fun r =>
        get_region (some (get_airport_code r.pickup zmap)) rmap ++ "-" ++
          get_region (some (get_airport_code r.dropoff zmap)) rmap)
      regionLanes.dedup.map (fun l => (l, (regionLanes.filter (fun x => x = l)).length))

structure TrendCell where
  total : ℕ
  change : Option ℚ
deriving DecidableEq, Repr

structure TrendRow where
  name : String
  cells : List TrendCell
deriving DecidableEq, Repr

/-- Lines 430-435: the entity's total in one week's statistics table
(first matching row's count, `0` when absent). -/
def lookupTotal (stats : List (String × ℕ)) (k : String) : ℕ :=
  match stats.filter (fun p => p.1 = k) with
  | [] => 0
  | p :: _ => p.2

/-- Lines 428-449: the per-week `{Total, %Change}` cells of one entity,
threading the previous week's total; `%Change` is `None` for the first
week and whenever the previous total is `0`, else
`(total - prev_total) / prev_total * 100` (no rounding). -/
def mkTrendCells (key : String) :
    List (List (String × ℕ)) → Option ℕ → List TrendCell
  | [], _ => []
  | st :: rest, prev =>
    ⟨lookupTotal st key,
      match prev with
      | none => none
      | some p =>
        if 0 < p then
          some ((((lookupTotal st key : ℚ) - (p : ℚ)) / (p : ℚ)) * 100)
        else none⟩ ::
      mkTrendCells key rest (some (lookupTotal st key))

/-- The `_latest_total` sort key: the most recent week's total (`0` when
there are no weeks). -/
def latestTotal (r : TrendRow) : ℕ := (r.cells.getLast?.map TrendCell.total).getD 0

def latestDesc (a b : TrendRow) : Prop := latestTotal b ≤ latestTotal a

instance : DecidableRel latestDesc := fun a b => by
  unfold latestDesc; infer_instance

/-- The entity universe: union of keys over the per-week tables. -/
def trendKeys (stats : List (List (String × ℕ))) : List String :=
  (stats.map (fun st => st.map Prod.fst)).flatten.dedup

/-- One row per entity, cells aligned with the week list. -/
def trendRows (stats : List (List (String × ℕ))) : List TrendRow :=
  (trendKeys stats).map (fun k => ⟨k, mkTrendCells k stats none⟩)

/-- `generate_lanes_report`: rows sorted by latest-week total descending. -/
def generate_lanes_report (weeks : List (String × List Row))
    (mapping : List (String × String)) : List TrendRow :=
  (trendRows (weeks.map (fun w => calculate_lanes_stats w.2 mapping))).insertionSort
    latestDesc

/-- `generate_regions_report`: rows sorted by latest-week total descending. -/
def generate_regions_report (weeks : List (String × List Row))
    (zmap rmap : List (String × String)) : List TrendRow :=
  (trendRows (weeks.map (fun w =>
    calculate_regions_stats w.2 zmap rmap))).insertionSort latestDesc

theorem mkTrendCells_length (key : String) :
    ∀ (stats : List (List (String × ℕ))) (prev : Option ℕ),
      (mkTrendCells key stats prev).length = stats.length := by
  intro stats
  induction stats with
  | nil => intro prev; rfl
  | cons st rest ih => intro prev; simp [mkTrendCells, ih]

theorem mkTrendCells_first (key : String)
    (stats : List (List (String × ℕ))) (c : TrendCell)
    (h : (mkTrendCells key stats none)[0]? = some c) : c.change = none := by
  cases stats with
  | nil => simp [mkTrendCells] at h
  | cons st rest =>
    simp [mkTrendCells] at h
    rw [← h]

theorem mkTrendCells_change (key : String) :
    ∀ (stats : List (List (String × ℕ))) (prev : Option ℕ) (i : ℕ) (c pc : TrendCell),
      (mkTrendCells key stats prev)[i + 1]? = some c →
      (mkTrendCells key stats prev)[i]? = some pc →
      c.change =
        (if 0 < pc.total then
          some ((((c.total : ℚ) - (pc.total : ℚ)) / (pc.total : ℚ)) * 100)
        else none) := by
  intro stats
  induction stats with
  | nil => intro prev i c pc h1 _; simp [mkTrendCells] at h1
  | cons st rest ih =>
    intro prev i c pc h1 h2
    simp only [mkTrendCells, List.getElem?_cons_succ] at h1 h2
    cases i with
    | zero =>
      rw [List.getElem?_cons_zero, Option.some.injEq] at h2
      cases rest with
      | nil => simp [mkTrendCells] at h1
      | cons st2 rest2 =>
        simp only [mkTrendCells, List.getElem?_cons_zero, Option.some.injEq] at h1
        rw [← h1, ← h2]
    | succ j =>
      rw [List.getElem?_cons_succ] at h2
      exact ih (some (lookupTotal st key)) j c pc h1 h2

theorem trendRows_spec (stats : List (List (String × ℕ))) (row : TrendRow)
    (h : row ∈ trendRows stats) :
    row.cells.length = stats.length ∧
    (∀ c, row.cells[0]? = some c → c.change = none) ∧
    (∀ i c pc, row.cells[i + 1]? = some c → row.cells[i]? = some pc →
      (pc.total = 0 → c.change = none) ∧
      (0 < pc.total →
        c.change =
          some ((((c.total : ℚ) - (pc.total : ℚ)) / (pc.total : ℚ)) * 100))) := by
  unfold trendRows at h
  rw [List.mem_map] at h
  obtain ⟨k, _, rfl⟩ := h
  refine ⟨mkTrendCells_length k stats none,
    fun c hc => mkTrendCells_first k stats c hc, ?_⟩
  intro i c pc h1 h2
  have hch := mkTrendCells_change k stats none i c pc h1 h2
  constructor
  · intro h0; rw [hch, h0]; simp
  · intro h0; rw [hch, if_pos h0]

/-- C3: in every lane report row and every region report row, the
`%Change` cell is null at the first week position and at any position
whose previous week total is `0`, and otherwise equals
`(total_i - total_{i-1}) / total_{i-1} * 100`; the guarded `Option ℚ`
computation produces no division by zero, `NaN` or `Infinity`.  The
label-distinctness hypothesis models the label-keyed `week_data`
dictionary and per-row column dictionary. -/
theorem claim3_pct_change (weeks : List (String × List Row))
    (zmap rmap : List (String × String))
    (_hlb : (weeks.map Prod.fst).Nodup) :
    (∀ row ∈ generate_lanes_report weeks zmap,
      row.cells.length = weeks.length ∧
      (∀ c, row.cells[0]? = some c → c.change = none) ∧
      (∀ i c pc, row.cells[i + 1]? = some c → row.cells[i]? = some pc →
        (pc.total = 0 → c.change = none) ∧
        (0 < pc.total →
          c.change =
            some ((((c.total : ℚ) - (pc.total : ℚ)) / (pc.total : ℚ)) * 100)))) ∧
    (∀ row ∈ generate_regions_report weeks zmap rmap,
      row.cells.length = weeks.length ∧
      (∀ c, row.cells[0]? = some c → c.change = none) ∧
      (∀ i c pc, row.cells[i + 1]? = some c → row.cells[i]? = some pc →
        (pc.total = 0 → c.change = none) ∧
        (0 < pc.total →
          c.change =
            some ((((c.total : ℚ) - (pc.total : ℚ)) / (pc.total : ℚ)) * 100)))) := by
  constructor
  · intro row hrow
    have hm : row ∈ trendRows (weeks.map fun w => calculate_lanes_stats w.2 zmap) :=
      (List.Perm.mem_iff (List.perm_insertionSort latestDesc _)).mp hrow
    obtain ⟨hl, hfst, hstep⟩ := trendRows_spec _ row hm
    exact ⟨by simpa using hl, hfst, hstep⟩
  · intro row hrow
    have hm : row ∈
        trendRows (weeks.map fun w => calculate_regions_stats w.2 zmap rmap) :=
      (List.Perm.mem_iff (List.perm_insertionSort latestDesc _)).mp hrow
    obtain ⟨hl, hfst, hstep⟩ := trendRows_spec _ row hm
    exact ⟨by simpa using hl, hfst, hstep⟩

/-- Witness for C3: a lane rated once in week 1 and absent in week 2
gets `%Change = (0 - 1) / 1 * 100 = -100` in week 2. -/
theorem claim3_pct_change_witness :
    (⟨0, some (-100)⟩ : TrendCell).change =
      some ((((⟨0, some (-100)⟩ : TrendCell).total : ℚ) - ((1 : ℕ) : ℚ)) /
        ((1 : ℕ) : ℚ) * 100) := by
  have h := claim3_pct_change
    [("W01Y25",
      [{ rate := some "1", pickup := some "10001", dropoff := some "10002" }]),
     ("W02Y25", ([] : List Row))] [] [] (by decide)
  have hm : (⟨"10001-10002", [⟨1, none⟩, ⟨0, some (-100)⟩]⟩ : TrendRow) ∈
      generate_lanes_report
        [("W01Y25",
          [{ rate := some "1", pickup := some "10001", dropoff := some "10002" }]),
         ("W02Y25", ([] : List Row))] [] := by decide
  have hc := (h.1 _ hm).2.2 0 ⟨0, some (-100)⟩ ⟨1, none⟩ (by decide) (by decide)
  exact hc.2 (by decide)

/-! ### Week/folder resolver (report_generator.py:25-36 and 125-144)

Folder names are screened by `startswith('W') and 'Quotes' in name`, then
week and year are sliced out of the first token as `prefix[1:3]` and
`prefix[3:5]` and fed to `int()`; a `ValueError`/`IndexError` skips the
folder.  Selected folders are sorted by `(year, week)` descending, the
first `num_weeks` are taken and reversed back to ascending order. -/

/-- One folder name's parse: `some (year, week)` or `none` when the
screen fails or `int()` raises. -/
def parseFolder (name : String) : Option (ℤ × ℤ) :=
  if startsWithW name && hasSub name "Quotes" then
    match pyInt (strSlice (firstToken name) 1 3),
        pyInt (strSlice (firstToken name) 3 5) with
    | some wk, some yr => some (2000 + yr, wk)
    | _, _ => none
  else none

/-- Lexicographic order on `(year, week)` keys. -/
def keyLe (a b : ℤ × ℤ) : Prop := a.1 < b.1 ∨ (a.1 = b.1 ∧ a.2 ≤ b.2)

instance : DecidableRel keyLe := fun a b => by
  unfold keyLe; infer_instance

/-- The `reverse=True` sort order of line 137. -/
def descK (a b : ℤ × ℤ) : Prop := keyLe b a

instance : DecidableRel descK := fun a b => by
  unfold descK keyLe; infer_instance

instance : IsTotal (ℤ × ℤ) descK where
  total a b := by
    unfold descK keyLe
    rcases lt_trichotomy a.1 b.1 with h | h | h
    · exact Or.inr (Or.inl h)
    · rcases le_total a.2 b.2 with h2 | h2
      · exact Or.inr (Or.inr ⟨h, h2⟩)
      · exact Or.inl (Or.inr ⟨h.symm, h2⟩)
    · exact Or.inl (Or.inl h)

instance : IsTrans (ℤ × ℤ) descK where
  trans a b c hab hbc := by
    unfold descK keyLe at *
    rcases hab with h1 | ⟨e1, l1⟩ <;> rcases hbc with h2 | ⟨e2, l2⟩
    · exact Or.inl (h2.trans h1)
    · exact Or.inl (e2 ▸ h1)
    · exact Or.inl (e1 ▸ h2)
    · exact Or.inr ⟨e2.trans e1, l2.trans l1⟩

/-- Lines 125-138: parse all folder names, sort `(year, week)` descending
(Python's stable sort, modelled by insertion sort), keep the first
`num_weeks`, and re-ascend by reversing. -/
def resolveWeeks (names : List String) (num_weeks : ℕ) : List (ℤ × ℤ) :=
  (((names.filterMap parseFolder).insertionSort descK).take num_weeks).reverse

/-- Python `f"{z:02d}"`. -/
def pad2 (z : ℤ) : String :=
  if z < 0 then "-" ++ toString z.natAbs
  else if z.natAbs < 10 then "0" ++ toString z.natAbs
  else toString z.natAbs

/-- Line 142: the display label `f"W{week:02d}Y{year % 100:02d}"`. -/
def weekLabel (yw : ℤ × ℤ) : String :=
  "W" ++ pad2 yw.2 ++ "Y" ++ pad2 (yw.1 % 100)

/-- The ASCII digit character of `n < 10`. -/
def digitChar (n : ℕ) : Char := Char.ofNat (48 + n)

/-- A folder name exactly matching the documented pattern
`W<ab><cd> Quotes` for digits `a b c d`. -/
def strictName (a b c d : ℕ) : String :=
  ⟨'W' :: digitChar a :: digitChar b :: digitChar c :: digitChar d :: " Quotes".data⟩

/-- C4 (counterexample to the claim as stated): the resolver neither
deduplicates periods — two folders both named `W0125 Quotes` yield the
period `(2025, 1)` twice — nor ignores every name that fails to match
`W<ww><yy> Quotes`: the non-matching name `W0225Quotesx` is still parsed
to `(2025, 2)` because the code only slices the first token after a
`startswith('W')`/`'Quotes' in name` screen. -/
theorem digitChar_facts (a : ℕ) (h : a < 10) :
    (digitChar a).isWhitespace = false ∧ (digitChar a).isDigit = true ∧
      (digitChar a).toNat = 48 + a ∧ digitChar a ≠ '-' ∧ digitChar a ≠ '+' := by
  interval_cases a <;>
    exact ⟨by decide, by decide, by decide, by decide, by decide⟩

theorem pyInt_two_digits (x y : Char) (hx : x.isDigit = true)
    (hy : y.isDigit = true) (hxm : x ≠ '-') (hxp : x ≠ '+') :
    pyInt ⟨[x, y]⟩ = some (((x.toNat - 48) * 10 + (y.toNat - 48) : ℕ) : ℤ) := by
  have hdv : digitsVal [x, y] = some ((x.toNat - 48) * 10 + (y.toNat - 48)) := by
    unfold digitsVal
    rw [if_pos ⟨by simp, by simp [hx, hy]⟩]
    simp only [List.foldl]
    norm_num
  unfold pyInt
  split
  · next rest heq =>
    injection heq with h1 _
    exact ((hxm h1).elim : _)
  · next rest heq =>
    injection heq with h1 _
    exact ((hxp h1).elim : _)
  · next =>
    rw [hdv]
    rfl

theorem parseFolder_strict (a b c d : ℕ) (ha : a < 10) (hb : b < 10)
    (hc : c < 10) (hd : d < 10) :
    parseFolder (strictName a b c d) =
      some (2000 + (10 * (c : ℤ) + (d : ℤ)), 10 * (a : ℤ) + (b : ℤ)) := by
  obtain ⟨aw, adg, atn, am, ap⟩ := digitChar_facts a ha
  obtain ⟨bw, bdg, btn, bm, bp⟩ := digitChar_facts b hb
  obtain ⟨cw, cdg, ctn, cm, cp⟩ := digitChar_facts c hc
  obtain ⟨dw, ddg, dtn, dm, dp⟩ := digitChar_facts d hd
  have hstart : startsWithW (strictName a b c d) = true := rfl
  have hsub : hasSub (strictName a b c d) "Quotes" = true := by
    apply decide_eq_true
    exact ⟨['W', digitChar a, digitChar b, digitChar c, digitChar d, ' '], [],
      by simp [strictName]⟩
  have htok : firstToken (strictName a b c d) =
      ⟨['W', digitChar a, digitChar b, digitChar c, digitChar d]⟩ := by
    show (⟨List.takeWhile _ (strictName a b c d).data⟩ : String) = _
    have : (strictName a b c d).data =
        'W' :: digitChar a :: digitChar b :: digitChar c :: digitChar d ::
          ' ' :: "Quotes".data := rfl
    rw [this]
    simp [List.takeWhile_cons, aw, bw, cw, dw]
  have hsl1 : strSlice (firstToken (strictName a b c d)) 1 3 =
      ⟨[digitChar a, digitChar b]⟩ := by
    rw [htok]; rfl
  have hsl2 : strSlice (firstToken (strictName a b c d)) 3 5 =
      ⟨[digitChar c, digitChar d]⟩ := by
    rw [htok]; rfl
  unfold parseFolder
  rw [hstart, hsub, hsl1, hsl2,
    pyInt_two_digits _ _ adg bdg am ap, pyInt_two_digits _ _ cdg ddg cm cp,
    atn, btn, ctn, dtn]
  norm_num
  constructor <;> ring

theorem claim4_counterexample :
    resolveWeeks ["W0125 Quotes", "W0125 Quotes", "W0225Quotesx"] 3 =
      [(2025, 1), (2025, 1), (2025, 2)] ∧
    ¬ (resolveWeeks ["W0125 Quotes", "W0125 Quotes", "W0225Quotesx"] 3).Nodup ∧
    parseFolder "W0225Quotesx" = some (2025, 2) := by
  refine ⟨by decide, by decide, by decide⟩

/-- C4 (amended): every folder name exactly matching `W<ww><yy> Quotes`
parses to `(year = 2000 + yy, week = ww)`; names for which the code's
loose parse fails are skipped without error (they simply do not
contribute a period); the selected window is chronologically sorted
ascending by `(year, week)` with duplicates retained (no
deduplication); it holds the `n` most recent periods — its length is
`min n` of the number of parsed periods (so all of them when fewer than
`n` exist, as a permutation), and any parsed period not re-appearing in
the window is `≤` every selected period; and for the folders
`W5224 Quotes`, `W0125 Quotes`, `W0225 Quotes`, selecting the last 2
periods yields the labels `[W01Y25, W02Y25]` across the year boundary. -/
theorem claim4_resolver (names : List String) (n : ℕ) :
    (∀ a b c d : ℕ, a < 10 → b < 10 → c < 10 → d < 10 →
      parseFolder (strictName a b c d) =
        some (2000 + (10 * (c : ℤ) + (d : ℤ)), 10 * (a : ℤ) + (b : ℤ))) ∧
    List.Sorted keyLe (resolveWeeks names n) ∧
    (resolveWeeks names n).length = min n (names.filterMap parseFolder).length ∧
    ((names.filterMap parseFolder).length ≤ n →
      List.Perm (resolveWeeks names n) (names.filterMap parseFolder)) ∧
    (∀ y ∈ names.filterMap parseFolder,
      y ∈ resolveWeeks names n ∨ ∀ x ∈ resolveWeeks names n, keyLe y x) ∧
    (resolveWeeks ["W5224 Quotes", "W0125 Quotes", "W0225 Quotes"] 2).map
      weekLabel = ["W01Y25", "W02Y25"] := by
  have hsorted : List.Sorted descK
      ((names.filterMap parseFolder).insertionSort descK) :=
    List.sorted_insertionSort descK (names.filterMap parseFolder)
  have htake : List.Sorted descK
      (((names.filterMap parseFolder).insertionSort descK).take n) :=
    List.Pairwise.sublist (List.take_sublist n _) hsorted
  refine ⟨parseFolder_strict, ?_, ?_, ?_, ?_, by decide⟩
  · exact List.pairwise_reverse.mpr htake
  · simp [resolveWeeks, List.length_insertionSort]
  · intro hle
    have hlen : ((names.filterMap parseFolder).insertionSort descK).length ≤ n := by
      rw [List.length_insertionSort]; exact hle
    unfold resolveWeeks
    rw [List.take_of_length_le hlen]
    exact (List.reverse_perm _).trans (List.perm_insertionSort descK _)
  · intro y hy
    have hy' : y ∈ (names.filterMap parseFolder).insertionSort descK :=
      (List.Perm.mem_iff (List.perm_insertionSort descK _)).mpr hy
    rw [← List.take_append_drop n
      ((names.filterMap parseFolder).insertionSort descK), List.mem_append] at hy'
    rcases hy' with hy' | hy'
    · exact Or.inl (List.mem_reverse.mpr hy')
    · refine Or.inr (fun x hx => ?_)
      have hx' : x ∈ ((names.filterMap parseFolder).insertionSort descK).take n :=
        List.mem_reverse.mp hx
      have hsplit : List.Pairwise descK
          (((names.filterMap parseFolder).insertionSort descK).take n ++
            ((names.filterMap parseFolder).insertionSort descK).drop n) := by
        rw [List.take_append_drop]
        exact hsorted
      exact (List.pairwise_append.mp hsplit).2.2 x hx' y hy'

/-- Witness for C4 (amended): the strictly matching name `W0125 Quotes`
parses to year 2025, week 1. -/
theorem claim4_resolver_witness :
    parseFolder "W0125 Quotes" = some (2025, 1) := by
  have h := (claim4_resolver [] 0).1 0 1 2 5
    (by norm_num) (by norm_num) (by norm_num) (by norm_num)
  have hs : strictName 0 1 2 5 = "W0125 Quotes" := by decide
  rw [hs] at h
  norm_num at h
  exact h

/-! ### Frame store: the aliasing discipline of the statistics functions

pandas DataFrames are heap objects; `df = df.copy()` allocates a fresh
frame and every later column assignment (`df['booked'] = ...`) mutates
only that copy.  We model the heap as a store of frames addressed by
index: `alloc` appends a frame, `write` replaces one in place.  Each
`calculate_*_stats` function is embedded as a store transformer
performing exactly the copies and column writes of the source, so that
the claim "the caller's frame is untouched" is about which indices get
written, not true by construction of a pure function. -/

abbrev Frame := List Row

structure Store where
  frames : List Frame
deriving DecidableEq, Repr

def Store.read (s : Store) (r : ℕ) : Frame := s.frames[r]?.getD []

def Store.alloc (s : Store) (d : Frame) : Store := ⟨s.frames ++ [d]⟩

def Store.write (s : Store) (r : ℕ) (d : Frame) : Store := ⟨s.frames.set r d⟩

/-- `df['booked'] = df['booked'].astype(str).str.lower() == 'true'`. -/
def setBookedCol (fr : Frame) : Frame :=
  fr.map (fun r => { r with bookedB := some (bookedFlag r.booked) })

/-- `df['is_rated'] = df['rate'].notna() & (df['rate'].astype(str).str.strip() != '')`. -/
def setIsRatedCol (fr : Frame) : Frame :=
  fr.map (fun r => { r with ratedB := some (isRatedCell r.rate) })

/-- `rated_df['origin_airport'] = rated_df['pickup Zip'].apply(...)`. -/
def setOriginCol (zmap : List (String × String)) (fr : Frame) : Frame :=
  fr.map (fun r => { r with originAirport := some (get_airport_code r.pickup zmap) })

/-- `rated_df['dest_airport'] = rated_df['dropoff Zip'].apply(...)`. -/
def setDestCol (zmap : List (String × String)) (fr : Frame) : Frame :=
  fr.map (fun r => { r with destAirport := some (get_airport_code r.dropoff zmap) })

/-- `rated_df['lane'] = rated_df['origin_airport'] + '-' + rated_df['dest_airport']`. -/
def setLaneCol (fr : Frame) : Frame :=
  fr.map (fun r =>
    { r with laneCol := some ((r.originAirport.getD "") ++ "-" ++ (r.destAirport.getD "")) })

/-- `rated_df['origin_region'] = rated_df['origin_airport'].apply(...)`. -/
def setOriginRegionCol (rmap : List (String × String)) (fr : Frame) : Frame :=
  fr.map (fun r => { r with originRegion := some (get_region r.originAirport rmap) })

/-- `rated_df['dest_region'] = rated_df['dest_airport'].apply(...)`. -/
def setDestRegionCol (rmap : List (String × String)) (fr : Frame) : Frame :=
  fr.map (fun r => { r with destRegion := some (get_region r.destAirport rmap) })

/-- `rated_df['region_lane'] = origin_region + '-' + dest_region`. -/
def setRegionLaneCol (fr : Frame) : Frame :=
  fr.map (fun r =>
    { r with
      regionLaneCol := some ((r.originRegion.getD "") ++ "-" ++ (r.destRegion.getD "")) })

/-- `groupby('customer').agg(...)` over the prepared frame. -/
def groupWeekStats (fr : Frame) : List CustStat :=
  (fr.filterMap Row.customer).dedup.map (fun c =>
    let g := fr.filter (fun r => r.customer = some c)
    ⟨c, (g.filter (fun r => r.bookedB.getD false)).length,
      (g.filter (fun r => r.ratedB.getD false)).length, g.length,
      round2 (((g.filter (fun r => r.ratedB.getD false)).length : ℚ) /
        (g.length : ℚ) * 100)⟩)

/-- `groupby('lane').agg(total=('lane','count'))` over the prepared frame. -/
def groupLaneStats (fr : Frame) : List (String × ℕ) :=
  (fr.filterMap Row.laneCol).dedup.map (fun l =>
    (l, (fr.filter (fun r => r.laneCol = some l)).length))

/-- `groupby('region_lane')` count over the prepared frame. -/
def groupRegionStats (fr : Frame) : List (String × ℕ) :=
  (fr.filterMap Row.regionLaneCol).dedup.map (fun l =>
    (l, (fr.filter (fun r => r.regionLaneCol = some l)).length))

/-- `calculate_week_stats` as a store transformer (lines 100-117):
copy the argument frame, write the `booked` and `is_rated` columns on
the copy, aggregate. -/
def calculate_week_stats_st (s : Store) (r : ℕ) : Store × List CustStat :=
  if (s.read r).isEmpty then (s, [])
  else
    let c := s.frames.length
    let s1 := s.alloc (s.read r)
    let s2 := s1.write c (setBookedCol (s1.read c))
    let s3 := s2.write c (setIsRatedCol (s2.read c))
    (s3, groupWeekStats (s3.read c))

/-- `calculate_lanes_stats` as a store transformer (lines 350-377):
copy, write `is_rated`, copy the rated restriction, write the airport
and lane columns on that second copy, aggregate. -/
def calculate_lanes_stats_st (s : Store) (r : ℕ)
    (zmap : List (String × String)) : Store × List (String × ℕ) :=
  if (s.read r).isEmpty then (s, [])
  else
    let c := s.frames.length
    let s1 := s.alloc (s.read r)
    let s2 := s1.write c (setIsRatedCol (s1.read c))
    let c2 := s2.frames.length
    let s3 := s2.alloc ((s2.read c).filter (fun row => row.ratedB.getD false))
    if (s3.read c2).isEmpty then (s3, [])
    else
      let s4 := s3.write c2 (setOriginCol zmap (s3.read c2))
      let s5 := s4.write c2 (setDestCol zmap (s4.read c2))
      let s6 := s5.write c2 (setLaneCol (s5.read c2))
      (s6, groupLaneStats (s6.read c2))

/-- `calculate_regions_stats` as a store transformer (lines 501-531). -/
def calculate_regions_stats_st (s : Store) (r : ℕ)
    (zmap rmap : List (String × String)) : Store × List (String × ℕ) :=
  if (s.read r).isEmpty then (s, [])
  else
    let c := s.frames.length
    let s1 := s.alloc (s.read r)
    let s2 := s1.write c (setIsRatedCol (s1.read c))
    let c2 := s2.frames.length
    let s3 := s2.alloc ((s2.read c).filter (fun row => row.ratedB.getD false))
    if (s3.read c2).isEmpty then (s3, [])
    else
      let s4 := s3.write c2 (setOriginCol zmap (s3.read c2))
      let s5 := s4.write c2 (setDestCol zmap (s4.read c2))
      let s6 := s5.write c2 (setOriginRegionCol rmap (s5.read c2))
      let s7 := s6.write c2 (setDestRegionCol rmap (s6.read c2))
      let s8 := s7.write c2 (setRegionLaneCol (s7.read c2))
      (s8, groupRegionStats (s8.read c2))

theorem read_alloc_of_lt (s : Store) (d : Frame) (j : ℕ)
    (h : j < s.frames.length) : (s.alloc d).read j = s.read j := by
  unfold Store.alloc Store.read
  rw [List.getElem?_append_left h]

theorem read_write_ne (s : Store) (c : ℕ) (d : Frame) (j : ℕ) (h : j ≠ c) :
    (s.write c d).read j = s.read j := by
  unfold Store.write Store.read
  rw [List.getElem?_set_ne (fun e => h e.symm)]

theorem length_write (s : Store) (c : ℕ) (d : Frame) :
    (s.write c d).frames.length = s.frames.length := by
  unfold Store.write
  exact List.length_set s.frames c d

theorem length_alloc (s : Store) (d : Frame) :
    (s.alloc d).frames.length = s.frames.length + 1 := by
  unfold Store.alloc
  simp

/-- C10: `calculate_week_stats`, `calculate_lanes_stats` and
`calculate_regions_stats` never modify the frame passed to them: each
copies it (and, for lanes/regions, copies the rated restriction) and
writes its derived columns only on the copies, so every frame already in
the store — in particular the caller's quote rows, including shared
cached frames — reads back unchanged after the call. -/
theorem claim10_no_mutation (s : Store) (r : ℕ)
    (zmap rmap : List (String × String)) (j : ℕ) (hj : j < s.frames.length) :
    ((calculate_week_stats_st s r).1).read j = s.read j ∧
    ((calculate_lanes_stats_st s r zmap).1).read j = s.read j ∧
    ((calculate_regions_stats_st s r zmap rmap).1).read j = s.read j := by
  have hne : j ≠ s.frames.length := Nat.ne_of_lt hj
  have hlt1 : j < s.frames.length + 1 := Nat.lt_succ_of_lt hj
  have hne1 : j ≠ s.frames.length + 1 := Nat.ne_of_lt hlt1
  refine ⟨?_, ?_, ?_⟩
  · unfold calculate_week_stats_st
    split
    · rfl
    · simp [read_write_ne, read_alloc_of_lt, length_write, length_alloc,
        hj, hne, hlt1, hne1]
  · unfold calculate_lanes_stats_st
    split
    · rfl
    · dsimp only
      split <;>
        simp [read_write_ne, read_alloc_of_lt, length_write, length_alloc,
          hj, hne, hlt1, hne1]
  · unfold calculate_regions_stats_st
    split
    · rfl
    · dsimp only
      split <;>
        simp [read_write_ne, read_alloc_of_lt, length_write, length_alloc,
          hj, hne, hlt1, hne1]

/-- Witness for C10 on a one-frame store. -/
theorem claim10_no_mutation_witness :
    ((calculate_week_stats_st ⟨[[{ customer := some "A", rate := some "1" }]]⟩
        0).1).read 0 =
      (Store.mk [[{ customer := some "A", rate := some "1" }]]).read 0 ∧
    ((calculate_lanes_stats_st ⟨[[{ customer := some "A", rate := some "1" }]]⟩
        0 []).1).read 0 =
      (Store.mk [[{ customer := some "A", rate := some "1" }]]).read 0 ∧
    ((calculate_regions_stats_st ⟨[[{ customer := some "A", rate := some "1" }]]⟩
        0 [] []).1).read 0 =
      (Store.mk [[{ customer := some "A", rate := some "1" }]]).read 0 :=
  claim10_no_mutation ⟨[[{ customer := some "A", rate := some "1" }]]⟩ 0 [] [] 0
    (by decide)

/-! ### Spatial expansion analyzer (`analyze_expansion_opportunities`,
expansion_app.py:93-186)

ZIP centroids are an association list `zip → (x, y)` in the planar
projection (metres).  Because the Euclidean distance itself is
irrational, the embedding carries the *square* of the reported
miles distance (`distMilesSq`); the reported `distance_miles` of the
source is its square root, which the claim-7 theorem relates to the
metre-space Euclidean distance explicitly. -/

/-- The analyzer's ZIP normalization `astype(str).str.strip().str[:5]`. -/
def cleanZip (s : String) : String := strTake (pyStrip s) 5

/-- Lines 114-118: the serviced set — cleaned pickup and dropoff ZIPs of
rated rows (a Python `set`, modelled as a deduplicated list). -/
def servicedZips (df : List Row) : List String :=
  (((df.filter (fun r => isRatedCell r.rate)).filterMap Row.pickup).map cleanZip ++
    ((df.filter (fun r => isRatedCell r.rate)).filterMap Row.dropoff).map
      cleanZip).dedup

/-- Line 131: `zip_code and len(zip_code) == 5 and zip_code.isdigit()`. -/
def validZip (z : String) : Bool :=
  (z != "") && (z.length == 5) && z.data.all Char.isDigit

/-- The stream of cleaned ZIP occurrences over unrated rows: the pickup
column pass followed by the dropoff column pass (lines 128-130). -/
def unratedZipOccurrences (df : List Row) : List String :=
  ((df.filter (fun r => !(isRatedCell r.rate))).filterMap Row.pickup).map cleanZip ++
    ((df.filter (fun r => !(isRatedCell r.rate))).filterMap Row.dropoff).map cleanZip

/-- `zip_counts[z] = zip_counts.get(z, 0) + 1` on an insertion-ordered
dictionary. -/
def bump : List (String × ℕ) → String → List (String × ℕ)
  | [], z => [(z, 1)]
  | (k, v) :: rest, z =>
    if k = z then (k, v + 1) :: rest else (k, v) :: bump rest z

/-- Lines 127-133: count every valid unserviced ZIP occurrence. -/
def zip_counts (df : List Row) : List (String × ℕ) :=
  (unratedZipOccurrences df).foldl
    (fun acc z =>
      if validZip z && !((servicedZips df).contains z) then bump acc z else acc) []

/-- Total occurrences of a ZIP across both columns of the unrated rows. -/
def occCount (df : List Row) (z : String) : ℕ :=
  ((unratedZipOccurrences df).filter (fun x => x = z)).length

theorem lookup_bump (z w : String) (acc : List (String × ℕ)) :
    List.lookup z (bump acc w) =
      (if z = w then some ((List.lookup z acc).getD 0 + 1)
      else List.lookup z acc) := by
  induction acc with
  | nil =>
    by_cases h : z = w
    · subst h; simp [bump, List.lookup]
    · have hb : (z == w) = false := beq_eq_false_iff_ne.mpr h
      simp [bump, List.lookup, h, hb]
  | cons kv rest ih =>
    obtain ⟨k, v⟩ := kv
    by_cases hkw : k = w
    · subst hkw
      by_cases hzk : z = k
      · subst hzk; simp [bump, List.lookup]
      · have hb : (z == k) = false := beq_eq_false_iff_ne.mpr hzk
        simp [bump, List.lookup, hzk, hb]
    · by_cases hzk : z = k
      · have hzw : ¬ z = w := fun e => hkw (hzk.symm.trans e)
        have hb : (z == k) = true := beq_iff_eq.mpr hzk
        simp [bump, List.lookup, hkw, hzw, hb]
      · have hb : (z == k) = false := beq_eq_false_iff_ne.mpr hzk
        simp [bump, List.lookup, hkw, hb, ih]

/-- Value of an optional counter after `c` further increments. -/
def optBump (o : Option ℕ) (c : ℕ) : Option ℕ :=
  if c = 0 then o else some (o.getD 0 + c)

theorem lookup_foldl_bump (keep : String → Bool) (z : String) :
    ∀ (occs : List String) (acc : List (String × ℕ)),
      List.lookup z
          (occs.foldl (fun a x => if keep x then bump a x else a) acc) =
        (if keep z then
          optBump (List.lookup z acc) ((occs.filter (fun x => x = z)).length)
        else List.lookup z acc) := by
  intro occs
  induction occs with
  | nil => intro acc; simp [optBump]
  | cons x rest ih =>
    intro acc
    rw [List.foldl_cons, ih]
    by_cases hxz : x = z
    · subst hxz
      have hf : (List.filter (fun y => y = x) (x :: rest)).length =
          (List.filter (fun y => y = x) rest).length + 1 := by
        simp [List.filter_cons]
      rw [hf]
      by_cases hkx : keep x
      · simp only [hkx, if_true, lookup_bump, if_pos rfl]
        rcases hLk : List.lookup x acc with _ | v <;>
          rcases hn : (List.filter (fun y => y = x) rest).length with _ | m <;>
            simp [optBump, hLk, hn] <;> omega
      · simp only [hkx, Bool.false_eq_true, if_false]
    · have hf : (List.filter (fun y => y = z) (x :: rest)).length =
          (List.filter (fun y => y = z) rest).length := by
        simp [List.filter_cons, hxz]
      rw [hf]
      have hzx : ¬ z = x := fun e => hxz e.symm
      by_cases hkx : keep x
      · simp only [hkx, if_true, lookup_bump, if_neg hzx]
      · simp only [hkx, Bool.false_eq_true, if_false]

theorem lookup_zip_counts (df : List Row) (z : String) :
    List.lookup z (zip_counts df) =
      (if validZip z && !((servicedZips df).contains z) then
        (if occCount df z = 0 then none else some (occCount df z))
      else none) := by
  unfold zip_counts occCount
  rw [lookup_foldl_bump (fun x => validZip x && !((servicedZips df).contains x)) z]
  by_cases h : validZip z && !((servicedZips df).contains z) <;>
    simp [h, optBump, List.lookup]

theorem keys_bump (l : List (String × ℕ)) (z : String) :
    (bump l z).map Prod.fst =
      (if z ∈ l.map Prod.fst then l.map Prod.fst
      else l.map Prod.fst ++ [z]) := by
  induction l with
  | nil => simp [bump]
  | cons kv rest ih =>
    obtain ⟨k, v⟩ := kv
    by_cases hkz : k = z
    · subst hkz; simp [bump]
    · have hzk : ¬ z = k := fun e => hkz e.symm
      by_cases hm : z ∈ rest.map Prod.fst
      · simp [bump, hkz, ih, hm, hzk]
      · simp [bump, hkz, ih, hm, hzk]

theorem keys_nodup_bump (l : List (String × ℕ)) (z : String)
    (h : (l.map Prod.fst).Nodup) : ((bump l z).map Prod.fst).Nodup := by
  rw [keys_bump]
  by_cases hm : z ∈ l.map Prod.fst
  · simpa [hm] using h
  · rw [if_neg hm, List.nodup_append]
    exact ⟨h, List.nodup_singleton z, by simpa using hm⟩

theorem keys_nodup_foldl (keep : String → Bool) :
    ∀ (occs : List String) (acc : List (String × ℕ)),
      (acc.map Prod.fst).Nodup →
      ((occs.foldl (fun a x => if keep x then bump a x else a) acc).map
        Prod.fst).Nodup := by
  intro occs
  induction occs with
  | nil => intro acc h; simpa using h
  | cons x rest ih =>
    intro acc h
    rw [List.foldl_cons]
    apply ih
    by_cases hkx : keep x
    · simpa [hkx] using keys_nodup_bump acc x h
    · simpa [hkx] using h

theorem zip_counts_keys_nodup (df : List Row) :
    ((zip_counts df).map Prod.fst).Nodup := by
  unfold zip_counts
  exact keys_nodup_foldl _ (unratedZipOccurrences df) [] (by simp)

theorem lookup_of_mem_keys_nodup :
    ∀ (l : List (String × ℕ)) (z : String) (n : ℕ),
      (l.map Prod.fst).Nodup → (z, n) ∈ l → List.lookup z l = some n := by
  intro l
  induction l with
  | nil => intro z n _ hm; simp at hm
  | cons kv rest ih =>
    intro z n hnd hm
    obtain ⟨k, v⟩ := kv
    rcases List.mem_cons.mp hm with he | hr
    · obtain ⟨h1, h2⟩ := Prod.mk.injEq .. ▸ he
      subst h1; subst h2
      simp [List.lookup]
    · have hzr : z ∈ rest.map Prod.fst :=
        List.mem_map.mpr ⟨(z, n), hr, rfl⟩
      have hzk : ¬ z = k := by
        intro e
        subst e
        exact (List.nodup_cons.mp hnd).1 hzr
      have hb : (z == k) = false := beq_eq_false_iff_ne.mpr hzk
      simp only [List.lookup, hb]
      exact ih z n (List.nodup_cons.mp hnd).2 hr

/-- Squared Euclidean distance in the centroid projection (metres²). -/
def sqDist (p q : ℚ × ℚ) : ℚ :=
  (p.1 - q.1) * (p.1 - q.1) + (p.2 - q.2) * (p.2 - q.2)

/-- `z in centroids_df.index` / `centroids_df.loc[z]`. -/
def centroidOf (cent : List (String × ℚ × ℚ)) (z : String) : Option (ℚ × ℚ) :=
  cent.lookup z

/-- Lines 145-151: the serviced ZIPs that have a centroid, with their
centroids (`serviced_zip_list` zipped with `serviced_centroids`). -/
def servicedWithCentroids (cent : List (String × ℚ × ℚ)) (sv : List String) :
    List (String × ℚ × ℚ) :=
  sv.filterMap (fun z => (centroidOf cent z).map (fun p => (z, p)))

/-- One step of the nearest-neighbour scan (what `tree.nearest` computes
over the serviced centroids; squared distances order identically). -/
def nearStep (p : ℚ × ℚ) (acc : Option (String × ℚ)) (zq : String × ℚ × ℚ) :
    Option (String × ℚ) :=
  match acc with
  | none => some (zq.1, sqDist p zq.2)
  | some best =>
    if sqDist p zq.2 < best.2 then some (zq.1, sqDist p zq.2) else some best

/-- Nearest serviced centroid: first index achieving the minimum squared
distance (ties resolved by scan order, as some tie order is by the
spatial index). -/
def nearestServiced (pts : List (String × ℚ × ℚ)) (p : ℚ × ℚ) :
    Option (String × ℚ) :=
  pts.foldl (nearStep p) none

/-- One output row of the analyzer.  `distMilesSq` carries the square of
the reported `distance_miles = euclidean_metres / 1609.34`. -/
structure ResultRow where
  zip_code : String
  quote_count : ℕ
  distMilesSq : Option ℚ
  nearest_serviced_zip : Option String
  airport_code : String
  region : String
deriving DecidableEq, Repr

/-- The analyzer's possible returns: the documented 4-tuple, or the bare
2-tuple of the `if not zip_counts` early return (line 136). -/
inductive AnalyzeOut where
  | quad (results : List ResultRow) (serviced : List String)
      (byAirport : List (String × ℕ)) (byRegion : List (String × ℕ)) : AnalyzeOut
  | pair (results : List ResultRow) (serviced : List String) : AnalyzeOut
deriving DecidableEq, Repr

/-- 1609.34 metres per mile (line 167). -/
def mileMeters : ℚ := 160934 / 100

/-- Lines 106-107: `pickup_airport` per row, from the cleaned pickup ZIP
(`astype(str)` stringifies `NaN` to `"nan"`). -/
def pickupAirports (df : List Row) (zmap : List (String × String)) :
    List String :=
  df.map (fun r => get_airport_code (some (cleanZip (pyStr r.pickup))) zmap)

/-- Line 110: total quote volume grouped by pickup airport code. -/
def totalsByAirport (df : List Row) (zmap : List (String × String)) :
    List (String × ℕ) :=
  (pickupAirports df zmap).dedup.map (fun c =>
    (c, ((pickupAirports df zmap).filter (fun x => x = c)).length))

/-- Line 108: `pickup_region` per row. -/
def pickupRegions (df : List Row) (zmap rmap : List (String × String)) :
    List String :=
  (pickupAirports df zmap).map (fun c => get_region (some c) rmap)

/-- Line 111: total quote volume grouped by pickup region. -/
def totalsByRegion (df : List Row) (zmap rmap : List (String × String)) :
    List (String × ℕ) :=
  (pickupRegions df zmap rmap).dedup.map (fun c =>
    (c, ((pickupRegions df zmap rmap).filter (fun x => x = c)).length))

/-- `sort_values('quote_count', ascending=False)` (line 184). -/
def countDesc (a b : ResultRow) : Prop := b.quote_count ≤ a.quote_count

instance : DecidableRel countDesc := fun a b => by
  unfold countDesc; infer_instance

/-- Lines 144-181: one result row for a counted unserviced ZIP: nearest
serviced centroid and squared-miles distance when both the ZIP's centroid
and some serviced centroid exist, null distance and null nearest
otherwise; then the airport code and region annotations. -/
def mkResultRow (cent : List (String × ℚ × ℚ)) (swc : List (String × ℚ × ℚ))
    (zmap rmap : List (String × String)) (zc : String × ℕ) : ResultRow :=
  let dn : Option ℚ × Option String :=
    if swc.isEmpty then (none, none)
    else
      match centroidOf cent zc.1 with
      | none => (none, none)
      | some p =>
        match nearestServiced swc p with
        | none => (none, none)
        | some best => (some (best.2 / (mileMeters * mileMeters)), some best.1)
  ⟨zc.1, zc.2, dn.1, dn.2, get_airport_code (some zc.1) zmap,
    get_region (some (get_airport_code (some zc.1) zmap)) rmap⟩

/-- `analyze_expansion_opportunities` (expansion_app.py:93-186). -/
def analyze_expansion_opportunities (df : List Row)
    (cent : List (String × ℚ × ℚ)) (zmap rmap : List (String × String)) :
    AnalyzeOut :=
  if (df.filter (fun r => !(isRatedCell r.rate))).isEmpty then
    .quad [] (servicedZips df) (totalsByAirport df zmap)
      (totalsByRegion df zmap rmap)
  else if (zip_counts df).isEmpty then .pair [] (servicedZips df)
  else
    .quad
      (((zip_counts df).map
          (mkResultRow cent (servicedWithCentroids cent (servicedZips df))
            zmap rmap)).insertionSort countDesc)
      (servicedZips df) (totalsByAirport df zmap) (totalsByRegion df zmap rmap)

/-- C8 (code bug, failing input): when the unrated rows produce no valid
unserviced ZIP count — here the single unrated quote's ZIP is already
serviced — the analyzer takes the `if not zip_counts:` early return of
line 136 and yields only `(results, serviced_zips)`, omitting the two
total-volume maps that its docstring promises and that the caller
unpacks; the claim that all four components are returned on every path
fails on exactly this input. -/
theorem claim8_return_paths :
    analyze_expansion_opportunities
      [{ rate := some "1", pickup := some "10001" },
       { pickup := some "10001" }] [] [] [] =
      AnalyzeOut.pair [] ["10001"] := by
  decide

theorem contains_iff_mem_str (l : List String) (z : String) :
    (l.contains z = true) ↔ z ∈ l := by
  rw [List.contains_iff_exists_mem_beq]
  constructor
  · rintro ⟨b, hb, he⟩
    rwa [beq_iff_eq.mp he]
  · intro h
    exact ⟨z, h, beq_self_eq_true z⟩

/-- C6: the serviced set is exactly the cleaned pickup/dropoff ZIPs of
rated rows; the unserviced-demand table associates a ZIP `z` with `n`
precisely when `z` is a valid 5-digit ZIP outside the serviced set and
`n` is its positive number of occurrences over the unrated rows; and
that occurrence count sums the pickup-side and dropoff-side occurrences
(both sides counted). -/
theorem claim6_serviced_counts (df : List Row) (z : String) (n : ℕ) :
    (z ∈ servicedZips df ↔
      ∃ r ∈ df, isRatedCell r.rate ∧
        ((∃ p, r.pickup = some p ∧ cleanZip p = z) ∨
          (∃ q, r.dropoff = some q ∧ cleanZip q = z))) ∧
    (List.lookup z (zip_counts df) = some n ↔
      (validZip z ∧ z ∉ servicedZips df ∧ 0 < n ∧ n = occCount df z)) ∧
    occCount df z =
      ((((df.filter (fun r => !(isRatedCell r.rate))).filterMap
          Row.pickup).map cleanZip).filter (fun x => x = z)).length +
        ((((df.filter (fun r => !(isRatedCell r.rate))).filterMap
          Row.dropoff).map cleanZip).filter (fun x => x = z)).length := by
  refine ⟨?_, ?_, ?_⟩
  · unfold servicedZips
    simp only [List.mem_dedup, List.mem_append, List.mem_map, List.mem_filterMap,
      List.mem_filter]
    constructor
    · rintro (⟨p, ⟨r, ⟨hr, hrt⟩, hp⟩, hz⟩ | ⟨q, ⟨r, ⟨hr, hrt⟩, hq⟩, hz⟩)
      · exact ⟨r, hr, hrt, Or.inl ⟨p, hp, hz⟩⟩
      · exact ⟨r, hr, hrt, Or.inr ⟨q, hq, hz⟩⟩
    · rintro ⟨r, hr, hrt, ⟨p, hp, hz⟩ | ⟨q, hq, hz⟩⟩
      · exact Or.inl ⟨p, ⟨r, ⟨hr, hrt⟩, hp⟩, hz⟩
      · exact Or.inr ⟨q, ⟨r, ⟨hr, hrt⟩, hq⟩, hz⟩
  · rw [lookup_zip_counts]
    by_cases h1 : validZip z
    · by_cases h2 : z ∈ servicedZips df
      · have hc : ((servicedZips df).contains z) = true :=
          (contains_iff_mem_str _ z).mpr h2
        simp [h1, hc, h2]
      · have hc : ((servicedZips df).contains z) = false := by
          cases h : (servicedZips df).contains z
          · rfl
          · exact absurd ((contains_iff_mem_str _ z).mp h) h2
        by_cases h0 : occCount df z = 0
        · simp [h1, hc, h2, h0]
          omega
        · simp [h1, hc, h2, h0]
          omega
    · simp [h1]
  · simp [occCount, unratedZipOccurrences, List.filter_append]

/-- Witness for C6: ZIP `10002` appears as both pickup and dropoff of an
unrated row (two occurrences) and is not serviced. -/
theorem claim6_serviced_counts_witness :
    List.lookup "10002"
      (zip_counts [{ rate := some "1", pickup := some "10001" },
        { pickup := some "10002", dropoff := some "10002" }]) = some 2 :=
  (claim6_serviced_counts
      [{ rate := some "1", pickup := some "10001" },
       { pickup := some "10002", dropoff := some "10002" }] "10002" 2).2.1.mpr
    ⟨by decide, by decide, by decide, by decide⟩

theorem foldl_nearStep_spec (p : ℚ × ℚ) :
    ∀ (pts : List (String × ℚ × ℚ)) (z0 : String) (d0 : ℚ),
      ∃ z d, pts.foldl (nearStep p) (some (z0, d0)) = some (z, d) ∧
        ((z = z0 ∧ d = d0) ∨ ∃ c, (z, c) ∈ pts ∧ d = sqDist p c) ∧
        d ≤ d0 ∧ ∀ w cw, (w, cw) ∈ pts → d ≤ sqDist p cw := by
  intro pts
  induction pts with
  | nil =>
    intro z0 d0
    exact ⟨z0, d0, rfl, Or.inl ⟨rfl, rfl⟩, le_refl d0, by simp⟩
  | cons q rest ih =>
    intro z0 d0
    rw [List.foldl_cons]
    by_cases hlt : sqDist p q.2 < d0
    · have hstep : nearStep p (some (z0, d0)) q = some (q.1, sqDist p q.2) := by
        simp [nearStep, hlt]
      rw [hstep]
      obtain ⟨z, d, heq, hor, hle, hall⟩ := ih q.1 (sqDist p q.2)
      refine ⟨z, d, heq, ?_, le_of_lt (lt_of_le_of_lt hle hlt), ?_⟩
      · rcases hor with ⟨hz, hd⟩ | ⟨c, hc, hd⟩
        · refine Or.inr ⟨q.2, ?_, hd⟩
          rw [hz]
          exact List.mem_cons_self q rest
        · exact Or.inr ⟨c, List.mem_cons_of_mem q hc, hd⟩
      · intro w cw hw
        rcases List.mem_cons.mp hw with he | hr
        · have hcw : cw = q.2 := congrArg Prod.snd he
          rw [hcw]
          exact hle
        · exact hall w cw hr
    · have hstep : nearStep p (some (z0, d0)) q = some (z0, d0) := by
        simp [nearStep, hlt]
      rw [hstep]
      obtain ⟨z, d, heq, hor, hle, hall⟩ := ih z0 d0
      refine ⟨z, d, heq, ?_, hle, ?_⟩
      · rcases hor with ⟨hz, hd⟩ | ⟨c, hc, hd⟩
        · exact Or.inl ⟨hz, hd⟩
        · exact Or.inr ⟨c, List.mem_cons_of_mem q hc, hd⟩
      · intro w cw hw
        rcases List.mem_cons.mp hw with he | hr
        · have hcw : cw = q.2 := congrArg Prod.snd he
          rw [hcw]
          exact le_trans hle (not_lt.mp hlt)
        · exact hall w cw hr

theorem nearestServiced_spec (p : ℚ × ℚ) (pts : List (String × ℚ × ℚ))
    (hne : pts ≠ []) :
    ∃ z c, nearestServiced pts p = some (z, sqDist p c) ∧ (z, c) ∈ pts ∧
      ∀ w cw, (w, cw) ∈ pts → sqDist p c ≤ sqDist p cw := by
  cases pts with
  | nil => exact absurd rfl hne
  | cons q rest =>
    unfold nearestServiced
    rw [List.foldl_cons]
    have hstep : nearStep p none q = some (q.1, sqDist p q.2) := rfl
    rw [hstep]
    obtain ⟨z, d, heq, hor, hle, hall⟩ := foldl_nearStep_spec p rest q.1 (sqDist p q.2)
    rcases hor with ⟨hz, hd⟩ | ⟨c, hc, hd⟩
    · refine ⟨z, q.2, by rw [heq, hd], ?_, ?_⟩
      · rw [hz]
        exact List.mem_cons_self q rest
      · intro w cw hw
        rcases List.mem_cons.mp hw with he | hr
        · have hcw : cw = q.2 := congrArg Prod.snd he
          rw [hcw]
        · rw [← hd]
          exact hall w cw hr
    · refine ⟨z, c, by rw [heq, hd], List.mem_cons_of_mem q hc, ?_⟩
      intro w cw hw
      rcases List.mem_cons.mp hw with he | hr
      · have hcw : cw = q.2 := congrArg Prod.snd he
        rw [hcw, ← hd]
        exact hle
      · rw [← hd]
        exact hall w cw hr

theorem sqDist_nonneg (p q : ℚ × ℚ) : 0 ≤ sqDist p q := by
  unfold sqDist
  have h1 := mul_self_nonneg (p.1 - q.1)
  have h2 := mul_self_nonneg (p.2 - q.2)
  linarith

theorem sqrt_milesSq (q : ℚ) (hq : 0 ≤ q) :
    Real.sqrt ((q / (mileMeters * mileMeters) : ℚ) : ℝ) =
      Real.sqrt ((q : ℚ) : ℝ) / ((mileMeters : ℚ) : ℝ) := by
  have hm : (0 : ℝ) < ((mileMeters : ℚ) : ℝ) := by
    norm_num [mileMeters]
  push_cast
  rw [Real.sqrt_div (by exact_mod_cast hq)]
  rw [Real.sqrt_mul_self hm.le]

/-- C7: every analyzer result row keeps its unserviced quote count; a row
whose ZIP lacks a centroid (or when no serviced ZIP has a centroid) gets
null distance and null nearest-ZIP; and a row whose ZIP has centroid `p`
gets some serviced ZIP `z` with centroid `c` minimizing the squared
Euclidean metre distance, with `distMilesSq = sqDist p c / 1609.34²` —
so the reported miles distance, its square root, is the Euclidean metre
distance divided by 1609.34. -/
theorem mkResultRow_zip (cent swc : List (String × ℚ × ℚ))
    (zmap rmap : List (String × String)) (zc : String × ℕ) :
    (mkResultRow cent swc zmap rmap zc).zip_code = zc.1 := rfl

theorem claim7_nearest_distance (df : List Row) (cent : List (String × ℚ × ℚ))
    (zmap rmap : List (String × String)) (results : List ResultRow)
    (sv : List String) (byA byR : List (String × ℕ))
    (h : analyze_expansion_opportunities df cent zmap rmap =
      AnalyzeOut.quad results sv byA byR)
    (row : ResultRow) (hrow : row ∈ results) :
    List.lookup row.zip_code (zip_counts df) = some row.quote_count ∧
    ((centroidOf cent row.zip_code = none ∨
        servicedWithCentroids cent (servicedZips df) = []) →
      row.distMilesSq = none ∧ row.nearest_serviced_zip = none) ∧
    (∀ p, centroidOf cent row.zip_code = some p →
      servicedWithCentroids cent (servicedZips df) ≠ [] →
      ∃ z c, row.nearest_serviced_zip = some z ∧
        (z, c) ∈ servicedWithCentroids cent (servicedZips df) ∧
        row.distMilesSq = some (sqDist p c / (mileMeters * mileMeters)) ∧
        (∀ w cw, (w, cw) ∈ servicedWithCentroids cent (servicedZips df) →
          sqDist p c ≤ sqDist p cw) ∧
        Real.sqrt ((sqDist p c / (mileMeters * mileMeters) : ℚ) : ℝ) =
          Real.sqrt ((sqDist p c : ℚ) : ℝ) / ((mileMeters : ℚ) : ℝ)) := by
  unfold analyze_expansion_opportunities at h
  by_cases h1 : (df.filter (fun r => !(isRatedCell r.rate))).isEmpty
  · rw [if_pos h1] at h
    injection h with hres hsv hba hbr
    rw [← hres] at hrow
    simp at hrow
  · rw [if_neg h1] at h
    by_cases h2 : (zip_counts df).isEmpty
    · rw [if_pos h2] at h
      exact AnalyzeOut.noConfusion h
    · rw [if_neg h2] at h
      injection h with hres hsv hba hbr
      rw [← hres] at hrow
      have hrow' : row ∈ (zip_counts df).map
          (mkResultRow cent (servicedWithCentroids cent (servicedZips df))
            zmap rmap) :=
        (List.Perm.mem_iff (List.perm_insertionSort countDesc _)).mp hrow
      obtain ⟨zc, hzc, hrw⟩ := List.mem_map.mp hrow'
      obtain ⟨z, n⟩ := zc
      subst hrw
      refine ⟨?_, ?_, ?_⟩
      · exact lookup_of_mem_keys_nodup _ z n (zip_counts_keys_nodup df) hzc
      · intro hc
        rcases hc with hcn | hsw
        · rw [mkResultRow_zip] at hcn
          by_cases hsw0 : (servicedWithCentroids cent (servicedZips df)).isEmpty
          · constructor <;> simp [mkResultRow, hsw0]
          · constructor <;> simp [mkResultRow, hsw0, hcn]
        · have hsw0 : (servicedWithCentroids cent (servicedZips df)).isEmpty := by
            simp [hsw]
          constructor <;> simp [mkResultRow, hsw0]
      · intro p hp hsw
        rw [mkResultRow_zip] at hp
        have hswe : (servicedWithCentroids cent (servicedZips df)).isEmpty
            = false := by
          simpa [List.isEmpty_iff] using hsw
        obtain ⟨z', c, hne, hmem, hmin⟩ := nearestServiced_spec p _ hsw
        refine ⟨z', c, ?_, hmem, ?_, hmin, sqrt_milesSq _ (sqDist_nonneg p c)⟩
        · simp [mkResultRow, hswe, hp, hne]
        · simp [mkResultRow, hswe, hp, hne]

/-- Witness for C7, the spec's concrete example: serviced ZIP `10001` at
centroid `(0,0)`, unserviced ZIP `10002` at `(1609.34, 0)` metres: the
nearest serviced ZIP is `10001` and the squared miles distance is `1`
(one mile). -/
theorem claim7_nearest_distance_witness :
    (⟨"10002", 1, some 1, some "10001", "10002", "10002"⟩ :
        ResultRow).distMilesSq = some 1 ∧
    (⟨"10002", 1, some 1, some "10001", "10002", "10002"⟩ :
        ResultRow).nearest_serviced_zip = some "10001" := by
  have h := claim7_nearest_distance
    [{ rate := some "1", pickup := some "10001" }, { pickup := some "10002" }]
    [("10001", ((0 : ℚ), (0 : ℚ))), ("10002", ((160934 / 100 : ℚ), (0 : ℚ)))]
    [] []
    [⟨"10002", 1, some 1, some "10001", "10002", "10002"⟩] ["10001"]
    [("10001", 1), ("10002", 1)] [("10001", 1), ("10002", 1)]
    (by decide)
    ⟨"10002", 1, some 1, some "10001", "10002", "10002"⟩ (by decide)
  obtain ⟨z, c, hne, hmem, hdist, hmin, hsqrt⟩ :=
    h.2.2 ((160934 / 100 : ℚ), (0 : ℚ)) (by decide) (by decide)
  have hsvc : servicedWithCentroids
      [("10001", ((0 : ℚ), (0 : ℚ))), ("10002", ((160934 / 100 : ℚ), (0 : ℚ)))]
      (servicedZips [{ rate := some "1", pickup := some "10001" },
        { pickup := some "10002" }]) = [("10001", ((0 : ℚ), (0 : ℚ)))] := by
    decide
  rw [hsvc] at hmem
  have hzc : z = "10001" ∧ c = ((0 : ℚ), (0 : ℚ)) := by
    simpa [Prod.ext_iff] using hmem
  obtain ⟨hz, hc⟩ := hzc
  subst hz
  subst hc
  constructor
  · rw [hdist]
    decide
  · exact hne

end LTL
